import Mathlib

/-!
Shallow embedding of `updatePartial` from
`src/arduino/epaper-client/partial-refresh.h` (UC8179 partial-refresh
extension for Seeed_GFX), together with proofs of the specified
properties of its emitted command/data stream.

Modelling conventions:

* The `EPaper` handle exposes exactly what the routine uses:
  `frameBuffer` (the `frameBuffer(0)` pointer; `none` models a null
  pointer, `some fb` models a pointer into byte memory, read at byte
  offsets), `width` and `height` (C `int`, modelled as `Int`; signed
  overflow is undefined behaviour in the source, so no wrap-around is
  modelled).
* Every externally visible action of the routine is recorded as an
  event (`Ev`): `startWrite`/`endWrite` (the write transaction),
  `writecommand`/`writedata` (bytes on the wire to the controller),
  `delay` (milliseconds), and `readBusy` (one `digitalRead(TFT_BUSY)`
  poll, recording the value read).
* The busy line is an external input: the list `busy` supplies the
  successive values returned by `digitalRead(TFT_BUSY)`.  The spin
  loop `while (digitalRead(TFT_BUSY) == 0) delay(10);` consumes one
  reading per iteration; if every supplied reading is `0` the loop has
  not terminated within the supplied readings, and the whole call is
  modelled as `none` ("the call does not return").  A `some` result
  carries the full event trace and the final handle state.
-/

/-- One externally visible action performed by `updatePartial`. -/
inductive Ev where
  | startWrite : Ev
  | writecommand : Nat → Ev
  | writedata : Nat → Ev
  | delay : Nat → Ev
  | readBusy : Nat → Ev
  | endWrite : Ev
deriving DecidableEq

/-- The display handle, with the members `updatePartial` actually uses
(`frameBuffer(0)`, `width()`, `height()`).  `frameBuffer = none`
models a null framebuffer pointer; `some fb` models a valid pointer,
with `fb i` the byte at offset `i`. -/
structure EPaper where
  frameBuffer : Option (Nat → Nat)
  width : Int
  height : Int

/-- `int bufSize = (width * height) / 8;` — C `int` division truncates
toward zero, hence `Int.tdiv`. -/
def bufSize (epd : EPaper) : Int :=
  Int.tdiv (epd.width * epd.height) 8

/-- The byte actually transmitted for a framebuffer byte `b`:
`epd->writedata(~fb[i])` — `~` on the promoted byte, truncated back to
8 bits by the `uint8_t` parameter, is `255 - (b % 256)`. -/
def inv8 (b : Nat) : Nat := 255 - b % 256

/-- The busy-wait loop `while (digitalRead(TFT_BUSY) == 0) delay(10);`
run against the supplied list of pin readings.  Returns the events of
the loop (each poll and each 10 ms delay), or `none` when every
supplied reading is `0`, i.e. the loop has not exited. -/
def busyWait : List Nat → Option (List Ev)
  | [] => none
  | r :: rs =>
    if r = 0 then
      (busyWait rs).map fun t => Ev.readBusy r :: Ev.delay 10 :: t
    else
      some [Ev.readBusy r]

/-- Shallow embedding of `updatePartial(EPaper* epd)` from
`src/arduino/epaper-client/partial-refresh.h`, lines 23–68.
Given the handle and the busy-line readings, returns `none` when the
busy-wait never exits (the call hangs), and otherwise `some (t, e)`
where `t` is the event trace in program order and `e` the handle state
at return (the routine never writes through the framebuffer pointer,
so the handle comes back unchanged). -/
def updatePartial (epd : EPaper) (busy : List Nat) : Option (List Ev × EPaper) :=
  match epd.frameBuffer with
  | none => some ([], epd)
  | some fb =>
    (busyWait busy).map fun bw =>
      (Ev.startWrite ::
        Ev.writecommand 0x00 :: Ev.writedata 0x1F ::
        Ev.writecommand 0x50 :: Ev.writedata 0x10 :: Ev.writedata 0x07 ::
        Ev.writecommand 0xE0 :: Ev.writedata 0x02 ::
        Ev.writecommand 0xE5 :: Ev.writedata 0x5A ::
        Ev.writecommand 0x13 ::
        ((List.range (bufSize epd).toNat).map fun i => Ev.writedata (inv8 (fb i))) ++
        Ev.writecommand 0x12 :: Ev.delay 10 ::
        bw ++ [Ev.endWrite],
       epd)

/-- A byte on the wire to the controller: a command byte (DC low) or a
data byte (DC high). -/
inductive Wire where
  | cmd : Nat → Wire
  | dat : Nat → Wire
deriving DecidableEq

/-- The wire byte of an event, if any: `writecommand`/`writedata` put
a byte on the wire; transaction control, delays and pin reads do not. -/
def toWire : Ev → Option Wire
  | Ev.writecommand b => some (Wire.cmd b)
  | Ev.writedata b => some (Wire.dat b)
  | _ => none

/-- The sequence of bytes put on the wire during a trace. -/
def wireOf (t : List Ev) : List Wire := t.filterMap toWire

/-- The maximal run of data bytes at the head of a wire sequence. -/
def takeData : List Wire → List Nat
  | Wire.dat b :: rest => b :: takeData rest
  | _ => []

/-- The data bytes following the first `0x13` (new image data) command
of a wire sequence: the image payload. -/
def imageSegment : List Wire → List Nat
  | [] => []
  | Wire.cmd b :: rest => if b = 0x13 then takeData rest else imageSegment rest
  | Wire.dat _ :: rest => imageSegment rest

/-! Concrete fixtures used by witnesses and counterexamples. -/

/-- A concrete framebuffer: every byte is `0xA5`. -/
def fbW : Nat → Nat := fun _ => 0xA5

/-- A concrete 8×1 handle over `fbW` (bufSize = 1). -/
def epdW : EPaper := { frameBuffer := some fbW, width := 8, height := 1 }

/-- A framebuffer agreeing with `fbW` on byte 0 and differing elsewhere. -/
def fbW2 : Nat → Nat := fun i => if i = 0 then 0xA5 else 7

/-- An 8×1 handle over `fbW2`. -/
def epdW2 : EPaper := { frameBuffer := some fbW2, width := 8, height := 1 }

/-- A handle whose framebuffer pointer is null. -/
def epdN : EPaper := { frameBuffer := none, width := 800, height := 480 }

/-- An all-zero framebuffer for the 800×480 scenario. -/
def fb800 : Nat → Nat := fun _ => 0

/-- The 800×480 handle of the spec's scenario (bufSize = 48000). -/
def epd800 : EPaper := { frameBuffer := some fb800, width := 800, height := 480 }

/-- The trace of `updatePartial epdW [1]`. -/
def tW : List Ev :=
  Ev.startWrite ::
  Ev.writecommand 0x00 :: Ev.writedata 0x1F ::
  Ev.writecommand 0x50 :: Ev.writedata 0x10 :: Ev.writedata 0x07 ::
  Ev.writecommand 0xE0 :: Ev.writedata 0x02 ::
  Ev.writecommand 0xE5 :: Ev.writedata 0x5A ::
  Ev.writecommand 0x13 ::
  ((List.range (bufSize epdW).toNat).map fun i => Ev.writedata (inv8 (fbW i))) ++
  Ev.writecommand 0x12 :: Ev.delay 10 ::
  [Ev.readBusy 1] ++ [Ev.endWrite]

/-- The trace of `updatePartial epdW2 [0, 0, 7]`: two busy polls, then ready. -/
def tW2 : List Ev :=
  Ev.startWrite ::
  Ev.writecommand 0x00 :: Ev.writedata 0x1F ::
  Ev.writecommand 0x50 :: Ev.writedata 0x10 :: Ev.writedata 0x07 ::
  Ev.writecommand 0xE0 :: Ev.writedata 0x02 ::
  Ev.writecommand 0xE5 :: Ev.writedata 0x5A ::
  Ev.writecommand 0x13 ::
  ((List.range (bufSize epdW2).toNat).map fun i => Ev.writedata (inv8 (fbW2 i))) ++
  Ev.writecommand 0x12 :: Ev.delay 10 ::
  (Ev.readBusy 0 :: Ev.delay 10 :: Ev.readBusy 0 :: Ev.delay 10 :: [Ev.readBusy 7]) ++ [Ev.endWrite]

/-- The trace of `updatePartial epd800 [1]`. -/
def t800 : List Ev :=
  Ev.startWrite ::
  Ev.writecommand 0x00 :: Ev.writedata 0x1F ::
  Ev.writecommand 0x50 :: Ev.writedata 0x10 :: Ev.writedata 0x07 ::
  Ev.writecommand 0xE0 :: Ev.writedata 0x02 ::
  Ev.writecommand 0xE5 :: Ev.writedata 0x5A ::
  Ev.writecommand 0x13 ::
  ((List.range (bufSize epd800).toNat).map fun i => Ev.writedata (inv8 (fb800 i))) ++
  Ev.writecommand 0x12 :: Ev.delay 10 ::
  [Ev.readBusy 1] ++ [Ev.endWrite]

/-- A degenerate handle: zero width, so bufSize = 0, framebuffer non-null. -/
def epdZ : EPaper := { frameBuffer := some fbW, width := 0, height := 480 }

/-- The trace of `updatePartial epdZ [1]`. -/
def tZ : List Ev :=
  Ev.startWrite ::
  Ev.writecommand 0x00 :: Ev.writedata 0x1F ::
  Ev.writecommand 0x50 :: Ev.writedata 0x10 :: Ev.writedata 0x07 ::
  Ev.writecommand 0xE0 :: Ev.writedata 0x02 ::
  Ev.writecommand 0xE5 :: Ev.writedata 0x5A ::
  Ev.writecommand 0x13 ::
  ((List.range (bufSize epdZ).toNat).map fun i => Ev.writedata (inv8 (fbW i))) ++
  Ev.writecommand 0x12 :: Ev.delay 10 ::
  [Ev.readBusy 1] ++ [Ev.endWrite]


/-! Helper lemmas about `busyWait` and the wire projection. -/

/-- `busyWait` returns exactly when some supplied reading is nonzero. -/
theorem busyWait_isSome (busy : List Nat) :
    (busyWait busy).isSome ↔ ∃ r ∈ busy, r ≠ 0 := by
  induction busy with
  | nil => simp [busyWait]
  | cons r rs ih =>
    by_cases hr : r = 0
    · subst hr
      simp [busyWait, ih]
    · simp [busyWait, hr]

/-- Unfolding `busyWait` at a busy (zero) reading. -/
theorem busyWait_cons_zero (rs : List Nat) :
    busyWait (0 :: rs) = (busyWait rs).map fun t => Ev.readBusy 0 :: Ev.delay 10 :: t := rfl

/-- Unfolding `busyWait` at a ready (nonzero) reading. -/
theorem busyWait_cons_pos (r : Nat) (rs : List Nat) (h : r ≠ 0) :
    busyWait (r :: rs) = some [Ev.readBusy r] := by
  simp [busyWait, h]

/-- Every event of the busy-wait loop is a delay or a pin poll. -/
theorem busyWait_polls (busy : List Nat) (bw : List Ev) (h : busyWait busy = some bw) :
    ∀ e ∈ bw, e = Ev.delay 10 ∨ ∃ v, e = Ev.readBusy v := by
  induction busy generalizing bw with
  | nil => simp [busyWait] at h
  | cons r rs ih =>
    by_cases hr : r = 0
    · subst hr
      rw [busyWait_cons_zero, Option.map_eq_some'] at h
      obtain ⟨t, ht, rfl⟩ := h
      intro e he
      rcases he with _ | ⟨_, he⟩
      · exact Or.inr ⟨0, rfl⟩
      · rcases he with _ | ⟨_, he⟩
        · exact Or.inl rfl
        · exact ih t ht e he
    · rw [busyWait_cons_pos r rs hr] at h
      obtain rfl : [Ev.readBusy r] = bw := Option.some.inj h
      intro e he
      rcases he with _ | ⟨_, he⟩
      · exact Or.inr ⟨r, rfl⟩
      · cases he

/-- The busy-wait loop of a returning call saw a nonzero (ready) reading. -/
theorem busyWait_ready (busy : List Nat) (bw : List Ev) (h : busyWait busy = some bw) :
    ∃ v, v ≠ 0 ∧ Ev.readBusy v ∈ bw := by
  induction busy generalizing bw with
  | nil => simp [busyWait] at h
  | cons r rs ih =>
    by_cases hr : r = 0
    · subst hr
      rw [busyWait_cons_zero, Option.map_eq_some'] at h
      obtain ⟨t, ht, rfl⟩ := h
      obtain ⟨v, hv, hmem⟩ := ih t ht
      exact ⟨v, hv, by simp [hmem]⟩
    · rw [busyWait_cons_pos r rs hr] at h
      obtain rfl : [Ev.readBusy r] = bw := Option.some.inj h
      exact ⟨r, hr, by simp⟩

/-- The busy-wait loop puts no bytes on the wire. -/
theorem busyWait_wire (busy : List Nat) (bw : List Ev) (h : busyWait busy = some bw) :
    bw.filterMap toWire = [] := by
  rw [List.filterMap_eq_nil_iff]
  intro e he
  rcases busyWait_polls busy bw h e he with rfl | ⟨v, rfl⟩
  · rfl
  · rfl

/-- The wire projection of the image-streaming loop: one data byte per
framebuffer byte, each sent through `inv8`. -/
theorem filterMap_toWire_data (f : Nat → Nat) (xs : List Nat) :
    (xs.map fun i => Ev.writedata (f i)).filterMap toWire =
      xs.map fun i => Wire.dat (f i) := by
  induction xs with
  | nil => rfl
  | cons a l ih => simp [List.filterMap_cons, toWire, ih]

/-- Structure of every returning `updatePartial` call on a non-null
framebuffer: the trace is the fixed configuration sequence, the image
stream, the refresh trigger and delay, the busy-wait events, and the
transaction close — and the handle is returned unchanged. -/
theorem updatePartial_shape (epd : EPaper) (fb : Nat → Nat) (busy : List Nat)
    (t : List Ev) (e' : EPaper) (h : epd.frameBuffer = some fb)
    (ht : updatePartial epd busy = some (t, e')) :
    ∃ bw, busyWait busy = some bw ∧ e' = epd ∧
      t = Ev.startWrite ::
        Ev.writecommand 0x00 :: Ev.writedata 0x1F ::
        Ev.writecommand 0x50 :: Ev.writedata 0x10 :: Ev.writedata 0x07 ::
        Ev.writecommand 0xE0 :: Ev.writedata 0x02 ::
        Ev.writecommand 0xE5 :: Ev.writedata 0x5A ::
        Ev.writecommand 0x13 ::
        ((List.range (bufSize epd).toNat).map fun i => Ev.writedata (inv8 (fb i))) ++
        Ev.writecommand 0x12 :: Ev.delay 10 ::
        bw ++ [Ev.endWrite] := by
  unfold updatePartial at ht
  rw [h, Option.map_eq_some'] at ht
  obtain ⟨bw, hbw, heq⟩ := ht
  obtain ⟨h1, h2⟩ := Prod.mk.injEq .. |>.mp heq
  exact ⟨bw, hbw, h2.symm, h1.symm⟩

/-- The wire bytes of every returning `updatePartial` call on a
non-null framebuffer: the four configuration commands with their five
parameter bytes, `0x13`, the inverted framebuffer bytes, `0x12`. -/
theorem wireOf_shape (epd : EPaper) (fb : Nat → Nat) (busy : List Nat)
    (t : List Ev) (e' : EPaper) (h : epd.frameBuffer = some fb)
    (ht : updatePartial epd busy = some (t, e')) :
    wireOf t =
      [Wire.cmd 0x00, Wire.dat 0x1F,
       Wire.cmd 0x50, Wire.dat 0x10, Wire.dat 0x07,
       Wire.cmd 0xE0, Wire.dat 0x02,
       Wire.cmd 0xE5, Wire.dat 0x5A,
       Wire.cmd 0x13] ++
      ((List.range (bufSize epd).toNat).map fun i => Wire.dat (inv8 (fb i))) ++
      [Wire.cmd 0x12] := by
  obtain ⟨bw, hbw, -, rfl⟩ := updatePartial_shape epd fb busy t e' h ht
  simp only [wireOf, List.filterMap_cons, List.filterMap_append, toWire,
    filterMap_toWire_data, busyWait_wire busy bw hbw]
  simp

set_option maxRecDepth 4096 in
/-- `inv8` is the 8-bit bitwise complement of the source byte. -/
theorem inv8_eq_xor (b : Nat) : inv8 b = (b % 256) ^^^ 255 := by
  have h : b % 256 < 256 := Nat.mod_lt b (by norm_num)
  have key : ∀ x : Fin 256, 255 - (x : Nat) = (x : Nat) ^^^ 255 := by decide
  simpa [inv8] using key ⟨b % 256, h⟩

/-- `takeData` collects exactly the data run, stopping at the next command. -/
theorem takeData_map_append (f : Nat → Nat) (xs : List Nat) (c : Nat) :
    takeData ((xs.map fun i => Wire.dat (f i)) ++ [Wire.cmd c]) = xs.map f := by
  induction xs with
  | nil => rfl
  | cons a l ih => simp [takeData, ih]

/-- The image payload of the emitted wire sequence is the streamed
framebuffer, byte for byte. -/
theorem imageSegment_shape (f : Nat → Nat) (xs : List Nat) :
    imageSegment
      ([Wire.cmd 0x00, Wire.dat 0x1F,
        Wire.cmd 0x50, Wire.dat 0x10, Wire.dat 0x07,
        Wire.cmd 0xE0, Wire.dat 0x02,
        Wire.cmd 0xE5, Wire.dat 0x5A,
        Wire.cmd 0x13] ++
       (xs.map fun i => Wire.dat (f i)) ++ [Wire.cmd c]) = xs.map f := by
  simp only [List.cons_append, List.nil_append, imageSegment]
  norm_num [imageSegment, takeData_map_append f xs c]

/-! The claims. -/

/-- C1: for every non-null framebuffer and any framebuffer contents, a
returning `updatePartial` call puts on the wire exactly the commands
0x00, 0x50, 0xE0, 0xE5, 0x13, then bufSize data bytes, then 0x12, in
that order, with parameter bytes 0x1F after 0x00, 0x10 and 0x07 after
0x50, 0x02 after 0xE0, and 0x5A after 0xE5 — nothing inserted,
reordered, or omitted. -/
theorem C1_command_sequence (epd : EPaper) (fb : Nat → Nat) (busy : List Nat)
    (t : List Ev) (e' : EPaper) (h : epd.frameBuffer = some fb)
    (ht : updatePartial epd busy = some (t, e')) :
    wireOf t =
      [Wire.cmd 0x00, Wire.dat 0x1F,
       Wire.cmd 0x50, Wire.dat 0x10, Wire.dat 0x07,
       Wire.cmd 0xE0, Wire.dat 0x02,
       Wire.cmd 0xE5, Wire.dat 0x5A,
       Wire.cmd 0x13] ++
      ((List.range (bufSize epd).toNat).map fun i => Wire.dat (inv8 (fb i))) ++
      [Wire.cmd 0x12] :=
  wireOf_shape epd fb busy t e' h ht

/-- Witness for C1 at the concrete 8×1 handle `epdW` with one ready
busy reading. -/
theorem C1_command_sequence_witness :
    epdW.frameBuffer = some fbW ∧ updatePartial epdW [1] = some (tW, epdW) ∧
      wireOf tW =
        [Wire.cmd 0x00, Wire.dat 0x1F,
         Wire.cmd 0x50, Wire.dat 0x10, Wire.dat 0x07,
         Wire.cmd 0xE0, Wire.dat 0x02,
         Wire.cmd 0xE5, Wire.dat 0x5A,
         Wire.cmd 0x13] ++
        ((List.range (bufSize epdW).toNat).map fun i => Wire.dat (inv8 (fbW i))) ++
        [Wire.cmd 0x12] :=
  ⟨rfl, rfl, C1_command_sequence epdW fbW [1] tW epdW rfl rfl⟩

/-- C2: each of the bufSize data bytes transmitted after the 0x13
command is the 8-bit bitwise complement (xor with 255) of the
corresponding source framebuffer byte. -/
theorem C2_data_inversion (epd : EPaper) (fb : Nat → Nat) (busy : List Nat)
    (t : List Ev) (e' : EPaper) (h : epd.frameBuffer = some fb)
    (ht : updatePartial epd busy = some (t, e')) :
    imageSegment (wireOf t) =
      (List.range (bufSize epd).toNat).map fun i => (fb i % 256) ^^^ 255 := by
  rw [wireOf_shape epd fb busy t e' h ht, imageSegment_shape]
  have hfun : (fun i => inv8 (fb i)) = fun i => (fb i % 256) ^^^ 255 :=
    funext fun i => inv8_eq_xor (fb i)
  rw [hfun]

/-- Witness for C2 at `epdW` (every source byte 0xA5, so every
transmitted byte 0x5A). -/
theorem C2_data_inversion_witness :
    epdW.frameBuffer = some fbW ∧ updatePartial epdW [1] = some (tW, epdW) ∧
      imageSegment (wireOf tW) =
        (List.range (bufSize epdW).toNat).map fun i => (fbW i % 256) ^^^ 255 :=
  ⟨rfl, rfl, C2_data_inversion epdW fbW [1] tW epdW rfl rfl⟩

/-- C3: on a null framebuffer pointer, `updatePartial` returns
immediately: the call returns for any busy-line behaviour, with an
empty trace (no commands, no data, no `startWrite`, no `endWrite`) and
the handle unchanged. -/
theorem C3_null_framebuffer (epd : EPaper) (busy : List Nat)
    (h : epd.frameBuffer = none) :
    updatePartial epd busy = some ([], epd) := by
  unfold updatePartial
  rw [h]

/-- Witness for C3 at the null-framebuffer handle `epdN`, with no ready
busy reading ever supplied (the call still returns). -/
theorem C3_null_framebuffer_witness :
    epdN.frameBuffer = none ∧ updatePartial epdN [] = some ([], epdN) :=
  ⟨rfl, C3_null_framebuffer epdN [] rfl⟩

/-- C4: with a non-null framebuffer, `updatePartial` returns iff some
busy-line reading is nonzero (ready); if every reading is busy the
call never returns — there is no timeout. -/
theorem C4_spin_loop_no_timeout (epd : EPaper) (fb : Nat → Nat) (busy : List Nat)
    (h : epd.frameBuffer = some fb) :
    (updatePartial epd busy).isSome ↔ ∃ r ∈ busy, r ≠ 0 := by
  unfold updatePartial
  rw [h]
  cases hb : busyWait busy with
  | none =>
    have := busyWait_isSome busy
    rw [hb] at this
    simpa using this.symm
  | some bw =>
    have := busyWait_isSome busy
    rw [hb] at this
    simpa using this.symm

/-- Witness for C4 at `epdW`: readings [0, 1] make the call return. -/
theorem C4_spin_loop_no_timeout_witness :
    epdW.frameBuffer = some fbW ∧
      ((updatePartial epdW [0, 1]).isSome ↔ ∃ r ∈ [0, 1], r ≠ 0) :=
  ⟨rfl, C4_spin_loop_no_timeout epdW fbW [0, 1] rfl⟩

/-- C5: whenever width × height is a multiple of 8, the computed
transfer size satisfies bufSize * 8 = width * height exactly. -/
theorem C5_bufSize_exact (epd : EPaper)
    (h : (8 : Int) ∣ epd.width * epd.height) :
    bufSize epd * 8 = epd.width * epd.height :=
  Int.tdiv_mul_cancel h

/-- Witness for C5 at the 800×480 handle: 48000 * 8 = 384000. -/
theorem C5_bufSize_exact_witness :
    (8 : Int) ∣ epd800.width * epd800.height ∧
      bufSize epd800 * 8 = epd800.width * epd800.height :=
  ⟨⟨48000, by decide⟩, C5_bufSize_exact epd800 ⟨48000, by decide⟩⟩

/-- C6: with a non-null framebuffer, every returning call acquires the
write transaction exactly once, as the very first action and before
any command or data byte, and releases it exactly once, as the very
last action, after all emissions and the busy wait. -/
theorem C6_transaction_bracketing (epd : EPaper) (fb : Nat → Nat) (busy : List Nat)
    (t : List Ev) (e' : EPaper) (h : epd.frameBuffer = some fb)
    (ht : updatePartial epd busy = some (t, e')) :
    t.head? = some Ev.startWrite ∧ t.getLast? = some Ev.endWrite ∧
      t.count Ev.startWrite = 1 ∧ t.count Ev.endWrite = 1 := by
  obtain ⟨bw, hbw, -, rfl⟩ := updatePartial_shape epd fb busy t e' h ht
  have hs : Ev.startWrite ∉ bw := by
    intro hm
    rcases busyWait_polls busy bw hbw _ hm with he | ⟨v, he⟩ <;> simp at he
  have he' : Ev.endWrite ∉ bw := by
    intro hm
    rcases busyWait_polls busy bw hbw _ hm with he | ⟨v, he⟩ <;> simp at he
  have hms : Ev.startWrite ∉
      (List.range (bufSize epd).toNat).map fun i => Ev.writedata (inv8 (fb i)) := by
    simp
  have hme : Ev.endWrite ∉
      (List.range (bufSize epd).toNat).map fun i => Ev.writedata (inv8 (fb i)) := by
    simp
  refine ⟨rfl, ?_, ?_, ?_⟩
  · have hsplit :
        Ev.startWrite ::
          Ev.writecommand 0x00 :: Ev.writedata 0x1F ::
          Ev.writecommand 0x50 :: Ev.writedata 0x10 :: Ev.writedata 0x07 ::
          Ev.writecommand 0xE0 :: Ev.writedata 0x02 ::
          Ev.writecommand 0xE5 :: Ev.writedata 0x5A ::
          Ev.writecommand 0x13 ::
          ((List.range (bufSize epd).toNat).map fun i => Ev.writedata (inv8 (fb i))) ++
          Ev.writecommand 0x12 :: Ev.delay 10 :: bw ++ [Ev.endWrite] =
        (Ev.startWrite ::
          Ev.writecommand 0x00 :: Ev.writedata 0x1F ::
          Ev.writecommand 0x50 :: Ev.writedata 0x10 :: Ev.writedata 0x07 ::
          Ev.writecommand 0xE0 :: Ev.writedata 0x02 ::
          Ev.writecommand 0xE5 :: Ev.writedata 0x5A ::
          Ev.writecommand 0x13 ::
          ((List.range (bufSize epd).toNat).map fun i => Ev.writedata (inv8 (fb i))) ++
          Ev.writecommand 0x12 :: Ev.delay 10 :: bw) ++ [Ev.endWrite] := by
      simp
    rw [hsplit, List.getLast?_concat]
  · simp [List.count_cons, List.count_append, List.count_eq_zero.mpr hs,
      List.count_eq_zero.mpr hms]
  · simp [List.count_cons, List.count_append, List.count_eq_zero.mpr he',
      List.count_eq_zero.mpr hme]

/-- Witness for C6 at `epdW` with one ready busy reading. -/
theorem C6_transaction_bracketing_witness :
    epdW.frameBuffer = some fbW ∧ updatePartial epdW [1] = some (tW, epdW) ∧
      (tW.head? = some Ev.startWrite ∧ tW.getLast? = some Ev.endWrite ∧
        tW.count Ev.startWrite = 1 ∧ tW.count Ev.endWrite = 1) :=
  ⟨rfl, rfl, C6_transaction_bracketing epdW fbW [1] tW epdW rfl rfl⟩

/-- C7 (counterexample): on the 800×480 panel the emitted wire stream
has 48011 bytes, not the 5·2 + 1 + 48000 + 1 = 48012 bytes that "5
header command/data pairs, 1 data-block command, 48000 data bytes, 1
trigger command" adds up to: the header holds 4 commands carrying 5
parameter bytes (0x50 carries two), i.e. 9 bytes, not 5 two-byte
pairs. -/
theorem C7_stream_length_counterexample :
    updatePartial epd800 [1] = some (t800, epd800) ∧
      (wireOf t800).length ≠ 5 * 2 + 1 + 48000 + 1 := by
  refine ⟨rfl, ?_⟩
  have hn : (bufSize epd800).toNat = 48000 := rfl
  rw [wireOf_shape epd800 fb800 [1] t800 epd800 rfl rfl]
  rw [List.length_append, List.length_append, List.length_map, List.length_range, hn]
  simp

/-- C7 (amended): for a handle reporting 800×480, bufSize = 48000 and
the emitted stream consists of 4 header commands carrying 5 parameter
bytes (the 0x50 command carries two), 1 data-block command, 48000
inverted data bytes, and 1 refresh-trigger command — 48011 wire bytes
in total. -/
theorem C7_scenario_800x480 (epd : EPaper) (fb : Nat → Nat) (busy : List Nat)
    (t : List Ev) (e' : EPaper) (hw : epd.width = 800) (hh : epd.height = 480)
    (h : epd.frameBuffer = some fb) (ht : updatePartial epd busy = some (t, e')) :
    bufSize epd = 48000 ∧ (wireOf t).length = 4 + 5 + 1 + 48000 + 1 := by
  have hbs : bufSize epd = 48000 := by
    unfold bufSize
    rw [hw, hh]
    decide
  refine ⟨hbs, ?_⟩
  rw [wireOf_shape epd fb busy t e' h ht]
  simp [hbs]

/-- Witness for the amended C7 at the concrete 800×480 handle. -/
theorem C7_scenario_800x480_witness :
    epd800.width = 800 ∧ epd800.height = 480 ∧ epd800.frameBuffer = some fb800 ∧
      updatePartial epd800 [1] = some (t800, epd800) ∧
      (bufSize epd800 = 48000 ∧ (wireOf t800).length = 4 + 5 + 1 + 48000 + 1) :=
  ⟨rfl, rfl, rfl, rfl, C7_scenario_800x480 epd800 fb800 [1] t800 epd800 rfl rfl rfl rfl⟩

/-- C8: the framebuffer is never written: the handle state at return
has the same framebuffer contents as at entry, on every path. -/
theorem C8_framebuffer_unchanged (epd : EPaper) (busy : List Nat)
    (t : List Ev) (e' : EPaper) (ht : updatePartial epd busy = some (t, e')) :
    e'.frameBuffer = epd.frameBuffer := by
  unfold updatePartial at ht
  cases hf : epd.frameBuffer with
  | none =>
    rw [hf] at ht
    obtain ⟨-, h2⟩ := Prod.mk.injEq .. |>.mp (Option.some.inj ht)
    rw [← h2]
    exact hf
  | some fb =>
    rw [hf, Option.map_eq_some'] at ht
    obtain ⟨bw, -, heq⟩ := ht
    obtain ⟨-, h2⟩ := Prod.mk.injEq .. |>.mp heq
    rw [← h2, hf]

/-- Witness for C8 at `epdW` with one ready busy reading. -/
theorem C8_framebuffer_unchanged_witness :
    updatePartial epdW [1] = some (tW, epdW) ∧
      epdW.frameBuffer = epdW.frameBuffer :=
  ⟨rfl, C8_framebuffer_unchanged epdW [1] tW epdW rfl⟩

/-- C9: a non-null framebuffer with width × height = 0 (so bufSize = 0)
still gets the full cycle: the whole configuration sequence, 0x13 with
zero data bytes, the 0x12 trigger — and the call still polls the busy
line, returning only once a nonzero reading arrives. -/
theorem C9_degenerate_geometry (epd : EPaper) (fb : Nat → Nat) (busy : List Nat)
    (t : List Ev) (e' : EPaper) (h : epd.frameBuffer = some fb)
    (h0 : epd.width * epd.height = 0) (ht : updatePartial epd busy = some (t, e')) :
    wireOf t =
      [Wire.cmd 0x00, Wire.dat 0x1F,
       Wire.cmd 0x50, Wire.dat 0x10, Wire.dat 0x07,
       Wire.cmd 0xE0, Wire.dat 0x02,
       Wire.cmd 0xE5, Wire.dat 0x5A,
       Wire.cmd 0x13, Wire.cmd 0x12] ∧
      ∃ v, v ≠ 0 ∧ Ev.readBusy v ∈ t := by
  have hbs : (bufSize epd).toNat = 0 := by
    unfold bufSize
    rw [h0]
    rfl
  constructor
  · have hwire := wireOf_shape epd fb busy t e' h ht
    rw [hbs] at hwire
    simpa using hwire
  · obtain ⟨bw, hbw, -, rfl⟩ := updatePartial_shape epd fb busy t e' h ht
    obtain ⟨v, hv, hm⟩ := busyWait_ready busy bw hbw
    exact ⟨v, hv, by simp [hm]⟩

/-- Witness for C9 at the zero-width handle `epdZ`. -/
theorem C9_degenerate_geometry_witness :
    epdZ.frameBuffer = some fbW ∧ epdZ.width * epdZ.height = 0 ∧
      updatePartial epdZ [1] = some (tZ, epdZ) ∧
      (wireOf tZ =
        [Wire.cmd 0x00, Wire.dat 0x1F,
         Wire.cmd 0x50, Wire.dat 0x10, Wire.dat 0x07,
         Wire.cmd 0xE0, Wire.dat 0x02,
         Wire.cmd 0xE5, Wire.dat 0x5A,
         Wire.cmd 0x13, Wire.cmd 0x12] ∧
        ∃ v, v ≠ 0 ∧ Ev.readBusy v ∈ tZ) :=
  ⟨rfl, rfl, rfl, C9_degenerate_geometry epdZ fbW [1] tZ epdZ rfl rfl rfl⟩

/-- C10: the wire bytes depend only on the framebuffer contents (on
the transferred region) and the reported dimensions: two returning
calls with equal dimensions and framebuffers equal on the first
bufSize bytes emit identical command/data streams, whatever the
busy-line readings were. -/
theorem C10_wire_independent_of_busy (epd1 epd2 : EPaper) (fb1 fb2 : Nat → Nat)
    (busy1 busy2 : List Nat) (t1 t2 : List Ev) (e1 e2 : EPaper)
    (h1 : epd1.frameBuffer = some fb1) (h2 : epd2.frameBuffer = some fb2)
    (hw : epd1.width = epd2.width) (hh : epd1.height = epd2.height)
    (hfb : ∀ i < (bufSize epd1).toNat, fb1 i = fb2 i)
    (ht1 : updatePartial epd1 busy1 = some (t1, e1))
    (ht2 : updatePartial epd2 busy2 = some (t2, e2)) :
    wireOf t1 = wireOf t2 := by
  have hbs : bufSize epd1 = bufSize epd2 := by
    unfold bufSize
    rw [hw, hh]
  rw [wireOf_shape epd1 fb1 busy1 t1 e1 h1 ht1,
    wireOf_shape epd2 fb2 busy2 t2 e2 h2 ht2, ← hbs]
  have hmap : ((List.range (bufSize epd1).toNat).map fun i => Wire.dat (inv8 (fb1 i))) =
      (List.range (bufSize epd1).toNat).map fun i => Wire.dat (inv8 (fb2 i)) := by
    apply List.map_congr_left
    intro i hi
    rw [List.mem_range] at hi
    rw [hfb i hi]
  rw [hmap]

/-- Witness for C10: `epdW` with readings [1] and `epdW2` (framebuffer
differing outside the transferred byte) with readings [0, 0, 7] emit
the same wire bytes. -/
theorem C10_wire_independent_of_busy_witness :
    epdW.frameBuffer = some fbW ∧ epdW2.frameBuffer = some fbW2 ∧
      epdW.width = epdW2.width ∧ epdW.height = epdW2.height ∧
      (∀ i < (bufSize epdW).toNat, fbW i = fbW2 i) ∧
      updatePartial epdW [1] = some (tW, epdW) ∧
      updatePartial epdW2 [0, 0, 7] = some (tW2, epdW2) ∧
      wireOf tW = wireOf tW2 :=
  ⟨rfl, rfl, rfl, rfl, by decide, rfl, rfl,
    C10_wire_independent_of_busy epdW epdW2 fbW fbW2 [1] [0, 0, 7] tW tW2 epdW epdW2
      rfl rfl rfl rfl (by decide) rfl rfl⟩
